import Mathlib

/-!
Shallow embedding of the Waterboy HTTP reading service
(backend/src/server.js) and verification of its specification.

Modelling conventions:
* The relational store is a `Store`: the list of persisted readings in
  insertion order together with the auto-increment counter for `id`.
* Numeric sensor values and timestamps are modelled as `Int`; the server
  clock instant `NOW()` is passed to each handler as an explicit `now`
  argument.  For the cleanup handler, time is measured in days, so the SQL
  age threshold `NOW() - INTERVAL 'days days'` becomes `now - days`.
* Absent JSON body fields (JavaScript `undefined`) are `none`.  The
  JavaScript truthiness test `!pot_id` on a string field is false exactly
  when the field is a present, non-empty string, which is what the match
  in `postMoisture` captures.
* Query string parameters are `Option` values; `x || default` on an absent
  parameter is `Option.getD`.
* Each handler returns a record mirroring the JSON body it serialises,
  with the HTTP status code as an extra field.
-/

/-- One row of the `readings` table (schema in the spec, section 6).
All columns except `location` are NOT NULL, hence total fields. -/
structure Reading where
  id : Nat
  pot_id : String
  location : Option String
  raw_value : Int
  moisture_percent : Int
  timestamp : Int
deriving DecidableEq

/-- The reading store: persisted rows in insertion order plus the
auto-increment counter backing the `id` primary key. -/
structure Store where
  rows : List Reading
  nextId : Nat
deriving DecidableEq

/-- The JSON body of `POST /api/moisture`; `none` is an absent field. -/
structure SubmitBody where
  pot_id : Option String
  location : Option String
  raw_value : Option Int
  moisture_percent : Option Int
deriving DecidableEq

/-- Response of `POST /api/moisture`: the HTTP status plus the JSON body
fields the handler can emit (`error`, `details`, `data`). -/
structure SubmitResponse where
  status : Nat
  error : Option String
  details : Option String
  data : Option Reading
deriving DecidableEq

/-- The 400 response of the validation branch (server.js lines 48-52).
Note: the emitted body has an `error` field only, no `details`. -/
def rejectResponse : SubmitResponse :=
  { status := 400
    error := some "Missing required fields: pot_id, raw_value, moisture_percent"
    details := none
    data := none }

/-- `location || null` (server.js line 60): an absent or empty (falsy)
location is stored as NULL. -/
def normalizeLocation : Option String → Option String
  | none => none
  | some l => if l = "" then none else some l

/-- `POST /api/moisture` (server.js lines 41-76).  The guard mirrors
`!pot_id || raw_value === undefined || moisture_percent === undefined`:
`pot_id` must be a present, non-empty string (a present empty string is
falsy in JavaScript), while the numeric fields must merely be present.
On success the row is inserted with server-assigned `timestamp := now`
and store-assigned `id := nextId`, and returned in full (RETURNING *). -/
def postMoisture (now : Int) (st : Store) (b : SubmitBody) : Store × SubmitResponse :=
  match b.pot_id, b.raw_value, b.moisture_percent with
  | some s, some rv, some mp =>
    if s = "" then (st, rejectResponse)
    else
      let row : Reading :=
        { id := st.nextId
          pot_id := s
          location := normalizeLocation b.location
          raw_value := rv
          moisture_percent := mp
          timestamp := now }
      ({ rows := st.rows ++ [row], nextId := st.nextId + 1 },
       { status := 201, error := none, details := none, data := some row })
  | _, _, _ => (st, rejectResponse)

/-- Reduction of `postMoisture` on a valid body. -/
theorem postMoisture_success_eq (now : Int) (st : Store) (bl : Option String)
    (s : String) (rv mp : Int) (hs : s ≠ "") :
    postMoisture now st ⟨some s, bl, some rv, some mp⟩ =
      ({ rows := st.rows ++ [⟨st.nextId, s, normalizeLocation bl, rv, mp, now⟩],
         nextId := st.nextId + 1 },
       { status := 201, error := none, details := none,
         data := some ⟨st.nextId, s, normalizeLocation bl, rv, mp, now⟩ }) := by
  simp [postMoisture, hs]

/-- Claim C1: a submit request whose body carries a (non-empty, per the data
model) `pot_id` and present `raw_value` and `moisture_percent` appends
exactly one row to the store and returns HTTP 201 whose `data` is the full
stored row, with server-assigned `timestamp = now` and store-assigned
`id = nextId`. -/
theorem c1_submit_success (now : Int) (st : Store) (b : SubmitBody)
    (s : String) (rv mp : Int)
    (hp : b.pot_id = some s) (hs : s ≠ "")
    (hr : b.raw_value = some rv) (hm : b.moisture_percent = some mp) :
    (postMoisture now st b).2.status = 201 ∧
    ∃ row : Reading,
      (postMoisture now st b).1.rows = st.rows ++ [row] ∧
      (postMoisture now st b).1.nextId = st.nextId + 1 ∧
      (postMoisture now st b).2.data = some row ∧
      row.timestamp = now ∧ row.id = st.nextId ∧
      row.pot_id = s ∧ row.raw_value = rv ∧ row.moisture_percent = mp := by
  obtain ⟨bp, bl, brv, bmp⟩ := b
  simp only at hp hr hm
  subst hp hr hm
  rw [postMoisture_success_eq now st bl s rv mp hs]
  exact ⟨rfl, _, rfl, rfl, rfl, rfl, rfl, rfl, rfl, rfl⟩

/-- Witness for C1 at a concrete request. -/
theorem c1_submit_success_witness :
    (SubmitBody.mk (some "pot-1") (some "kitchen") (some 512) (some 47)).pot_id
        = some "pot-1" ∧
    ("pot-1" : String) ≠ "" ∧
    ((postMoisture 1000 ⟨[], 1⟩
        (SubmitBody.mk (some "pot-1") (some "kitchen") (some 512) (some 47))).2.status = 201 ∧
      ∃ row : Reading,
        (postMoisture 1000 ⟨[], 1⟩
          (SubmitBody.mk (some "pot-1") (some "kitchen") (some 512) (some 47))).1.rows
            = [] ++ [row] ∧
        (postMoisture 1000 ⟨[], 1⟩
          (SubmitBody.mk (some "pot-1") (some "kitchen") (some 512) (some 47))).1.nextId = 1 + 1 ∧
        (postMoisture 1000 ⟨[], 1⟩
          (SubmitBody.mk (some "pot-1") (some "kitchen") (some 512) (some 47))).2.data = some row ∧
        row.timestamp = 1000 ∧ row.id = 1 ∧
        row.pot_id = "pot-1" ∧ row.raw_value = 512 ∧ row.moisture_percent = 47) :=
  ⟨rfl, by decide,
    c1_submit_success 1000 ⟨[], 1⟩ _ "pot-1" 512 47 rfl (by decide) rfl rfl⟩

/-- Claim C2: with all required fields present, a zero `raw_value` or a zero
`moisture_percent` is not treated as missing: the request succeeds with
HTTP 201 (never the 400 rejection) and the reading is persisted. -/
theorem c2_zero_is_valid (now : Int) (st : Store) (b : SubmitBody)
    (s : String) (rv mp : Int)
    (hp : b.pot_id = some s) (hs : s ≠ "")
    (hr : b.raw_value = some rv) (hm : b.moisture_percent = some mp)
    (hzero : rv = 0 ∨ mp = 0) :
    (postMoisture now st b).2.status = 201 ∧
    (postMoisture now st b).2.status ≠ 400 ∧
    (postMoisture now st b).1.rows.length = st.rows.length + 1 := by
  obtain ⟨bp, bl, brv, bmp⟩ := b
  simp only at hp hr hm
  subst hp hr hm
  rw [postMoisture_success_eq now st bl s rv mp hs]
  simp

/-- Witness for C2 at a concrete request with `raw_value = 0`. -/
theorem c2_zero_is_valid_witness :
    (SubmitBody.mk (some "pot-1") none (some 0) (some 47)).pot_id = some "pot-1" ∧
    ("pot-1" : String) ≠ "" ∧
    ((0 : Int) = 0 ∨ (47 : Int) = 0) ∧
    ((postMoisture 5 ⟨[], 1⟩
        (SubmitBody.mk (some "pot-1") none (some 0) (some 47))).2.status = 201 ∧
      (postMoisture 5 ⟨[], 1⟩
        (SubmitBody.mk (some "pot-1") none (some 0) (some 47))).2.status ≠ 400 ∧
      (postMoisture 5 ⟨[], 1⟩
        (SubmitBody.mk (some "pot-1") none (some 0) (some 47))).1.rows.length
          = ([] : List Reading).length + 1) :=
  ⟨rfl, by decide, Or.inl rfl,
    c2_zero_is_valid 5 ⟨[], 1⟩ _ "pot-1" 0 47 rfl (by decide) rfl rfl (Or.inl rfl)⟩

/-- Counterexample to claim C3 as stated: the validation rejection for a
body missing `pot_id` is HTTP 400 whose JSON body has an `error` field but
no `details` field, so the error body does not contain both an `error`
string and a `details` string. -/
theorem c3_details_missing_counterexample :
    (postMoisture 0 ⟨[], 1⟩ (SubmitBody.mk none none (some 1) (some 2))).2.status = 400 ∧
    (postMoisture 0 ⟨[], 1⟩ (SubmitBody.mk none none (some 1) (some 2))).2.error ≠ none ∧
    (postMoisture 0 ⟨[], 1⟩ (SubmitBody.mk none none (some 1) (some 2))).2.details = none := by
  decide

/-- Claim C3 (amended): a submit request missing `pot_id`, `raw_value`, or
`moisture_percent` returns HTTP 400 with a JSON error body containing an
`error` string (but no `details` field), and the store is unchanged. -/
theorem c3_validation_rejects (now : Int) (st : Store) (b : SubmitBody)
    (h : b.pot_id = none ∨ b.raw_value = none ∨ b.moisture_percent = none) :
    (postMoisture now st b).2.status = 400 ∧
    (postMoisture now st b).2.error ≠ none ∧
    (postMoisture now st b).2.details = none ∧
    (postMoisture now st b).1 = st := by
  obtain ⟨bp, bl, brv, bmp⟩ := b
  simp only at h
  rcases h with h | h | h
  · subst h
    cases brv <;> cases bmp <;> simp [postMoisture, rejectResponse]
  · subst h
    cases bp <;> cases bmp <;> simp [postMoisture, rejectResponse]
  · subst h
    cases bp <;> cases brv <;> simp [postMoisture, rejectResponse]

/-- Witness for the amended C3 at a concrete request missing `pot_id`. -/
theorem c3_validation_rejects_witness :
    ((SubmitBody.mk none none (some 3) (some 4)).pot_id = none ∨
      (SubmitBody.mk none none (some 3) (some 4)).raw_value = none ∨
      (SubmitBody.mk none none (some 3) (some 4)).moisture_percent = none) ∧
    ((postMoisture 7 ⟨[], 1⟩ (SubmitBody.mk none none (some 3) (some 4))).2.status = 400 ∧
      (postMoisture 7 ⟨[], 1⟩ (SubmitBody.mk none none (some 3) (some 4))).2.error ≠ none ∧
      (postMoisture 7 ⟨[], 1⟩ (SubmitBody.mk none none (some 3) (some 4))).2.details = none ∧
      (postMoisture 7 ⟨[], 1⟩ (SubmitBody.mk none none (some 3) (some 4))).1 = ⟨[], 1⟩) :=
  ⟨Or.inl rfl, c3_validation_rejects 7 ⟨[], 1⟩ _ (Or.inl rfl)⟩

/-- Readings ordered by `timestamp` descending (`ORDER BY timestamp DESC`). -/
def tsDesc (a b : Reading) : Prop := b.timestamp ≤ a.timestamp

instance : DecidableRel tsDesc :=
  fun a b => decidable_of_iff (b.timestamp ≤ a.timestamp) Iff.rfl

instance : IsTotal Reading tsDesc := ⟨fun a b => le_total b.timestamp a.timestamp⟩

instance : IsTrans Reading tsDesc := ⟨fun _ _ _ h h' => le_trans h' h⟩

/-- Response of `GET /api/moisture/:pot_id`. -/
structure HistoryResponse where
  status : Nat
  pot_id : String
  count : Nat
  data : List Reading
deriving DecidableEq

/-- `GET /api/moisture/:pot_id` (server.js lines 79-107): the SQL query
`SELECT * FROM readings WHERE pot_id = $1 ORDER BY timestamp DESC LIMIT $2`
with `limit := req.query.limit || 100` (absent parameter defaults to 100). -/
def historyHandler (st : Store) (p : String) (limitQ : Option Nat) : HistoryResponse :=
  let lim := limitQ.getD 100
  let rows := (List.insertionSort tsDesc (st.rows.filter fun r => decide (r.pot_id = p))).take lim
  { status := 200, pot_id := p, count := rows.length, data := rows }

/-- Claim C4: `history(pot_id, limit)` returns exactly the readings for that
`pot_id`, ordered by timestamp descending, truncated to at most `limit`
rows, and an absent `limit` defaults to 100. -/
theorem c4_history (st : Store) (p : String) (limitQ : Option Nat) :
    historyHandler st p none = historyHandler st p (some 100) ∧
    (∀ r ∈ (historyHandler st p limitQ).data, r.pot_id = p) ∧
    (historyHandler st p limitQ).data.length ≤ limitQ.getD 100 ∧
    ∃ full : List Reading,
      full.Perm (st.rows.filter fun r => decide (r.pot_id = p)) ∧
      full.Pairwise (fun a b => b.timestamp ≤ a.timestamp) ∧
      (historyHandler st p limitQ).data = full.take (limitQ.getD 100) := by
  refine ⟨rfl, ?_, ?_, ?_⟩
  · intro r hr
    have hmem : r ∈ List.insertionSort tsDesc
        (st.rows.filter fun r => decide (r.pot_id = p)) := List.take_subset _ _ hr
    have : r ∈ st.rows.filter fun r => decide (r.pot_id = p) :=
      (List.perm_insertionSort tsDesc _).subset hmem
    simpa using List.of_mem_filter this
  · simpa [historyHandler] using
      (List.length_take _ _).le.trans (min_le_left _ _)
  · exact ⟨List.insertionSort tsDesc (st.rows.filter fun r => decide (r.pot_id = p)),
      List.perm_insertionSort tsDesc _,
      List.sorted_insertionSort tsDesc _,
      rfl⟩

/-- Claim C9: for a `pot_id` with no readings in the store, the history
endpoint answers HTTP 200 with an empty `data` list and `count = 0`,
performing no existence check. -/
theorem c9_unknown_pot_empty (st : Store) (p : String) (limitQ : Option Nat)
    (h : ∀ r ∈ st.rows, r.pot_id ≠ p) :
    (historyHandler st p limitQ).status = 200 ∧
    (historyHandler st p limitQ).data = [] ∧
    (historyHandler st p limitQ).count = 0 := by
  have hfil : (st.rows.filter fun r => decide (r.pot_id = p)) = [] := by
    simp only [List.filter_eq_nil_iff, decide_eq_true_eq]
    exact h
  refine ⟨rfl, ?_, ?_⟩ <;> simp [historyHandler, hfil]

/-- Witness for C9: a store holding one reading for pot `"A"`, queried for
pot `"B"`. -/
theorem c9_unknown_pot_empty_witness :
    (∀ r ∈ (Store.mk [⟨1, "A", none, 500, 50, 10⟩] 2).rows, r.pot_id ≠ "B") ∧
    ((historyHandler ⟨[⟨1, "A", none, 500, 50, 10⟩], 2⟩ "B" none).status = 200 ∧
      (historyHandler ⟨[⟨1, "A", none, 500, 50, 10⟩], 2⟩ "B" none).data = [] ∧
      (historyHandler ⟨[⟨1, "A", none, 500, 50, 10⟩], 2⟩ "B" none).count = 0) :=
  ⟨by decide, c9_unknown_pot_empty ⟨[⟨1, "A", none, 500, 50, 10⟩], 2⟩ "B" none (by decide)⟩

/-- Readings ordered by `ORDER BY pot_id, timestamp DESC`: ascending
`pot_id`, and descending `timestamp` within a `pot_id`. -/
def potThenTsDesc (a b : Reading) : Prop :=
  a.pot_id < b.pot_id ∨ (a.pot_id = b.pot_id ∧ b.timestamp ≤ a.timestamp)

instance : DecidableRel potThenTsDesc :=
  fun a b => decidable_of_iff
    (a.pot_id < b.pot_id ∨ (a.pot_id = b.pot_id ∧ b.timestamp ≤ a.timestamp)) Iff.rfl

instance : IsTotal Reading potThenTsDesc := by
  refine ⟨fun a b => ?_⟩
  rcases lt_trichotomy a.pot_id b.pot_id with h | h | h
  · exact Or.inl (Or.inl h)
  · rcases le_total b.timestamp a.timestamp with ht | ht
    · exact Or.inl (Or.inr ⟨h, ht⟩)
    · exact Or.inr (Or.inr ⟨h.symm, ht⟩)
  · exact Or.inr (Or.inl h)

instance : IsTrans Reading potThenTsDesc := by
  refine ⟨fun a b c hab hbc => ?_⟩
  rcases hab with hab | ⟨hab, hts⟩
  · rcases hbc with hbc | ⟨hbc, _⟩
    · exact Or.inl (lt_trans hab hbc)
    · exact Or.inl (hbc ▸ hab)
  · rcases hbc with hbc | ⟨hbc, hts'⟩
    · exact Or.inl (hab ▸ hbc)
    · exact Or.inr ⟨hab.trans hbc, le_trans hts' hts⟩

/-- `DISTINCT ON (pot_id)`: from a list already ordered by
`pot_id, timestamp DESC`, keep the first row of each `pot_id`. -/
def distinctOnPot : List Reading → List Reading
  | [] => []
  | r :: rs => r :: (distinctOnPot rs).filter fun x => decide (x.pot_id ≠ r.pot_id)

theorem distinctOnPot_sublist (l : List Reading) : (distinctOnPot l).Sublist l := by
  induction l with
  | nil => simp [distinctOnPot]
  | cons r rs ih =>
    exact List.Sublist.cons₂ r ((List.filter_sublist _).trans ih)

theorem distinctOnPot_covers_aux (p : String) :
    ∀ l : List Reading, (∃ r ∈ l, r.pot_id = p) →
      ∃ k ∈ distinctOnPot l, k.pot_id = p := by
  intro l
  induction l with
  | nil => rintro ⟨r, hr, _⟩; cases hr
  | cons a rs ih =>
    rintro ⟨r, hr, hrp⟩
    rcases List.mem_cons.mp hr with hr | hr
    · subst hr
      exact ⟨r, List.mem_cons_self _ _, hrp⟩
    · rcases ih ⟨r, hr, hrp⟩ with ⟨k, hk, hkp⟩
      by_cases hpa : p = a.pot_id
      · exact ⟨a, List.mem_cons_self _ _, hpa.symm⟩
      · refine ⟨k, List.mem_cons_of_mem _ ?_, hkp⟩
        exact List.mem_filter.mpr ⟨hk, by simpa [hkp] using hpa⟩

theorem distinctOnPot_covers (l : List Reading) (p : String) :
    (∃ k ∈ distinctOnPot l, k.pot_id = p) ↔ ∃ r ∈ l, r.pot_id = p := by
  constructor
  · rintro ⟨k, hk, hkp⟩
    exact ⟨k, (distinctOnPot_sublist l).subset hk, hkp⟩
  · exact distinctOnPot_covers_aux p l

theorem distinctOnPot_nodup (l : List Reading) :
    ((distinctOnPot l).map Reading.pot_id).Nodup := by
  induction l with
  | nil => simp [distinctOnPot]
  | cons r rs ih =>
    simp only [distinctOnPot, List.map_cons, List.nodup_cons]
    constructor
    · intro hmem
      rcases List.mem_map.mp hmem with ⟨k, hk, hkp⟩
      have := List.of_mem_filter hk
      simp only [decide_eq_true_eq] at this
      exact this hkp
    · exact ((List.filter_sublist _).map Reading.pot_id).nodup ih

theorem distinctOnPot_ascending :
    ∀ l : List Reading, l.Pairwise potThenTsDesc →
      (distinctOnPot l).Pairwise fun a b => a.pot_id < b.pot_id := by
  intro l
  induction l with
  | nil => intro _; simp [distinctOnPot]
  | cons r rs ih =>
    intro h
    rcases List.pairwise_cons.mp h with ⟨hr, hrs⟩
    simp only [distinctOnPot, List.pairwise_cons]
    constructor
    · intro k hk
      have hne : k.pot_id ≠ r.pot_id := by
        have := List.of_mem_filter hk
        simpa using this
      have hkrs : k ∈ rs :=
        (distinctOnPot_sublist rs).subset (List.mem_filter.mp hk).1
      rcases hr k hkrs with hlt | ⟨heq, _⟩
      · exact hlt
      · exact absurd heq.symm hne
    · exact List.Pairwise.sublist (List.filter_sublist _) (ih hrs)

theorem distinctOnPot_max :
    ∀ l : List Reading, l.Pairwise potThenTsDesc →
      ∀ k ∈ distinctOnPot l, ∀ x ∈ l, x.pot_id = k.pot_id →
        x.timestamp ≤ k.timestamp := by
  intro l
  induction l with
  | nil => intro _ k hk; cases hk
  | cons r rs ih =>
    intro h k hk x hx hxp
    rcases List.pairwise_cons.mp h with ⟨hr, hrs⟩
    rcases List.mem_cons.mp hk with hk | hk
    · subst hk
      rcases List.mem_cons.mp hx with hx | hx
      · subst hx; exact le_refl _
      · rcases hr x hx with hlt | ⟨_, hts⟩
        · exact absurd (hxp ▸ hlt) (lt_irrefl _)
        · exact hts
    · have hne : k.pot_id ≠ r.pot_id := by
        have := List.of_mem_filter hk
        simpa using this
      have hkd : k ∈ distinctOnPot rs := (List.mem_filter.mp hk).1
      rcases List.mem_cons.mp hx with hx | hx
      · subst hx
        exact absurd hxp.symm hne
      · exact ih hrs k hkd x hx hxp

/-- A row of the `GET /api/pots/latest` result.  The SELECT list in
server.js lines 112-119 names `pot_id, location, raw_value,
moisture_percent, timestamp` — and nothing else: the `id` column is not
selected, so this row type has no `id` field. -/
structure LatestRow where
  pot_id : String
  location : Option String
  raw_value : Int
  moisture_percent : Int
  timestamp : Int
deriving DecidableEq

/-- The projection performed by the SELECT list of `GET /api/pots/latest`:
every `Reading` column except `id`. -/
def projectReading (r : Reading) : LatestRow :=
  { pot_id := r.pot_id
    location := r.location
    raw_value := r.raw_value
    moisture_percent := r.moisture_percent
    timestamp := r.timestamp }

/-- Response of `GET /api/pots/latest`. -/
structure LatestResponse where
  status : Nat
  count : Nat
  data : List LatestRow
deriving DecidableEq

/-- `GET /api/pots/latest` (server.js lines 110-135): the SQL query
`SELECT DISTINCT ON (pot_id) pot_id, location, raw_value,
moisture_percent, timestamp FROM readings ORDER BY pot_id, timestamp
DESC`: sort by `(pot_id ASC, timestamp DESC)`, keep the first row of each
`pot_id`, and project away the unselected `id` column. -/
def latestPerPot (st : Store) : LatestResponse :=
  let rows := (distinctOnPot (List.insertionSort potThenTsDesc st.rows)).map projectReading
  { status := 200, count := rows.length, data := rows }

/-- Claim C5: `latestPerPot` returns exactly one row per distinct `pot_id`
occurring in the store, each one a maximum-timestamp row for its `pot_id`,
ordered by `pot_id` ascending (strictly, as pot ids are distinct). -/
theorem c5_latest_per_pot (st : Store) :
    ((latestPerPot st).data.map LatestRow.pot_id).Nodup ∧
    (∀ p : String,
      p ∈ (latestPerPot st).data.map LatestRow.pot_id ↔
        ∃ r ∈ st.rows, r.pot_id = p) ∧
    (∀ row ∈ (latestPerPot st).data,
      ∃ r ∈ st.rows, projectReading r = row ∧
        ∀ x ∈ st.rows, x.pot_id = row.pot_id → x.timestamp ≤ r.timestamp) ∧
    (latestPerPot st).data.Pairwise (fun a b => a.pot_id < b.pot_id) := by
  set sorted := List.insertionSort potThenTsDesc st.rows with hsorted
  have hperm : sorted.Perm st.rows := List.perm_insertionSort potThenTsDesc st.rows
  have hpair : sorted.Pairwise potThenTsDesc :=
    List.sorted_insertionSort potThenTsDesc st.rows
  have hmap : (latestPerPot st).data.map LatestRow.pot_id
      = (distinctOnPot sorted).map Reading.pot_id := by
    simp only [latestPerPot, List.map_map]
    exact List.map_congr_left fun a _ => rfl
  refine ⟨?_, ?_, ?_, ?_⟩
  · rw [hmap]; exact distinctOnPot_nodup sorted
  · intro p
    rw [hmap]
    constructor
    · intro hp
      rcases List.mem_map.mp hp with ⟨k, hk, hkp⟩
      exact (distinctOnPot_covers sorted p).mp
        ⟨k, hk, hkp⟩ |>.imp fun r hr => ⟨hperm.subset hr.1, hr.2⟩
    · rintro ⟨r, hr, hrp⟩
      rcases (distinctOnPot_covers sorted p).mpr
        ⟨r, hperm.symm.subset hr, hrp⟩ with ⟨k, hk, hkp⟩
      exact List.mem_map.mpr ⟨k, hk, hkp⟩
  · intro row hrow
    rcases List.mem_map.mp hrow with ⟨k, hk, hkrow⟩
    refine ⟨k, hperm.subset ((distinctOnPot_sublist sorted).subset hk), hkrow, ?_⟩
    intro x hx hxp
    have hxs : x ∈ sorted := hperm.symm.subset hx
    have hpot : x.pot_id = k.pot_id := by
      rw [hxp, ← hkrow]; rfl
    exact distinctOnPot_max sorted hpair k hk x hxs hpot
  · have : (latestPerPot st).data.Pairwise (fun a b => a.pot_id < b.pot_id) ↔
        (distinctOnPot sorted).Pairwise
          (fun a b => (projectReading a).pot_id < (projectReading b).pot_id) := by
      simp [latestPerPot, List.pairwise_map]
    rw [this]
    have := distinctOnPot_ascending sorted hpair
    exact this.imp fun h => h

/-- Counterexample to claim C6 as stated: two stores whose single readings
differ only in their store-assigned `id` produce identical
`latestPerPot` responses, so the returned rows cannot carry the `id` of
the selected row (the SELECT list omits the `id` column). -/
theorem c6_no_id_counterexample :
    latestPerPot ⟨[⟨1, "pot-1", none, 500, 50, 10⟩], 2⟩
      = latestPerPot ⟨[⟨99, "pot-1", none, 500, 50, 10⟩], 100⟩ ∧
    (⟨1, "pot-1", none, 500, 50, 10⟩ : Reading).id
      ≠ (⟨99, "pot-1", none, 500, 50, 10⟩ : Reading).id := by
  decide

/-- Claim C6 (amended): every row returned by `latestPerPot` carries the
`pot_id`, `location`, `raw_value`, `moisture_percent`, and `timestamp` of
a stored reading, but not its store-assigned `id` (the SELECT omits the
`id` column, so the result type has no `id` field). -/
theorem c6_latest_row_fields (st : Store) (row : LatestRow)
    (h : row ∈ (latestPerPot st).data) :
    ∃ r ∈ st.rows,
      row.pot_id = r.pot_id ∧ row.location = r.location ∧
      row.raw_value = r.raw_value ∧ row.moisture_percent = r.moisture_percent ∧
      row.timestamp = r.timestamp ∧ row = projectReading r := by
  rcases List.mem_map.mp h with ⟨k, hk, hkrow⟩
  have hmem : k ∈ st.rows :=
    (List.perm_insertionSort potThenTsDesc st.rows).subset
      ((distinctOnPot_sublist _).subset hk)
  exact ⟨k, hmem, by rw [← hkrow]; exact ⟨rfl, rfl, rfl, rfl, rfl, rfl⟩⟩

/-- Witness for the amended C6 on a one-reading store. -/
theorem c6_latest_row_fields_witness :
    (projectReading ⟨1, "pot-1", none, 500, 50, 10⟩
        ∈ (latestPerPot ⟨[⟨1, "pot-1", none, 500, 50, 10⟩], 2⟩).data) ∧
    ∃ r ∈ (Store.mk [⟨1, "pot-1", none, 500, 50, 10⟩] 2).rows,
      (projectReading ⟨1, "pot-1", none, 500, 50, 10⟩).pot_id = r.pot_id ∧
      (projectReading ⟨1, "pot-1", none, 500, 50, 10⟩).location = r.location ∧
      (projectReading ⟨1, "pot-1", none, 500, 50, 10⟩).raw_value = r.raw_value ∧
      (projectReading ⟨1, "pot-1", none, 500, 50, 10⟩).moisture_percent = r.moisture_percent ∧
      (projectReading ⟨1, "pot-1", none, 500, 50, 10⟩).timestamp = r.timestamp ∧
      projectReading ⟨1, "pot-1", none, 500, 50, 10⟩ = projectReading r :=
  ⟨by decide,
    c6_latest_row_fields ⟨[⟨1, "pot-1", none, 500, 50, 10⟩], 2⟩ _ (by decide)⟩

/-- The `GROUP BY pot_id, location` grouping key of `GET /api/pots`. -/
def potKey (r : Reading) : String × Option String := (r.pot_id, r.location)

/-- The readings of one `(pot_id, location)` group. -/
def groupOf (st : Store) (k : String × Option String) : List Reading :=
  st.rows.filter fun r => decide (potKey r = k)

/-- `MAX(timestamp)` over a list of readings (0 on the empty list, which
never arises for a non-empty group). -/
def maxTs : List Reading → Int
  | [] => 0
  | [r] => r.timestamp
  | r :: s :: rs => max r.timestamp (maxTs (s :: rs))

theorem le_maxTs : ∀ l : List Reading, ∀ r ∈ l, r.timestamp ≤ maxTs l := by
  intro l
  induction l with
  | nil => intro r hr; cases hr
  | cons a tl ih =>
    intro r hr
    cases tl with
    | nil =>
      rcases List.mem_singleton.mp hr with rfl
      exact le_refl _
    | cons b tl2 =>
      rcases List.mem_cons.mp hr with hr | hr
      · subst hr; exact le_max_left _ _
      · exact le_trans (ih r hr) (le_max_right _ _)

theorem maxTs_mem : ∀ l : List Reading, l ≠ [] → ∃ r ∈ l, r.timestamp = maxTs l := by
  intro l
  induction l with
  | nil => intro h; exact absurd rfl h
  | cons a tl ih =>
    intro _
    cases tl with
    | nil => exact ⟨a, List.mem_singleton.mpr rfl, rfl⟩
    | cons b tl2 =>
      rcases ih (by simp) with ⟨r, hr, hrts⟩
      rcases max_choice a.timestamp (maxTs (b :: tl2)) with h | h
      · exact ⟨a, List.mem_cons_self _ _, h.symm⟩
      · exact ⟨r, List.mem_cons_of_mem _ hr, by rw [hrts]; exact h.symm⟩

/-- A row of the `GET /api/pots` result: the grouping key plus the
aggregates `COUNT(*)` and `MAX(timestamp)`. -/
structure PotRow where
  pot_id : String
  location : Option String
  reading_count : Nat
  last_reading : Int
deriving DecidableEq

/-- The row built for one grouping key. -/
def mkPotRow (st : Store) (k : String × Option String) : PotRow :=
  { pot_id := k.1
    location := k.2
    reading_count := (groupOf st k).length
    last_reading := maxTs (groupOf st k) }

/-- Grouping keys ordered by `ORDER BY pot_id` (the location component is
not ordered). -/
def keyLe (a b : String × Option String) : Prop := a.1 ≤ b.1

instance : DecidableRel keyLe :=
  fun a b => decidable_of_iff (a.1 ≤ b.1) Iff.rfl

instance : IsTotal (String × Option String) keyLe := ⟨fun a b => le_total a.1 b.1⟩

instance : IsTrans (String × Option String) keyLe := ⟨fun _ _ _ h h' => le_trans h h'⟩

/-- Response of `GET /api/pots`. -/
structure PotsResponse where
  status : Nat
  count : Nat
  data : List PotRow
deriving DecidableEq

/-- `GET /api/pots` (server.js lines 138-166): the SQL query
`SELECT pot_id, location, COUNT(*) as reading_count, MAX(timestamp) as
last_reading FROM readings GROUP BY pot_id, location ORDER BY pot_id`:
one row per distinct `(pot_id, location)` pair (SQL grouping treats NULL
locations as one group, as `Option.none` does here), ordered by `pot_id`
ascending. -/
def listPots (st : Store) : PotsResponse :=
  let keys := (st.rows.map potKey).dedup
  let rows := (List.insertionSort keyLe keys).map (mkPotRow st)
  { status := 200, count := rows.length, data := rows }

/-- Claim C7: `listPots` returns exactly one row per distinct
`(pot_id, location)` pair observed among the readings, with
`reading_count` the number of readings of that pair and `last_reading`
their maximum timestamp, ordered by `pot_id` ascending. -/
theorem c7_list_pots (st : Store) :
    (∀ (p : String) (loc : Option String),
      (∃ r ∈ st.rows, r.pot_id = p ∧ r.location = loc) ↔
        ∃ row ∈ (listPots st).data, row.pot_id = p ∧ row.location = loc) ∧
    ((listPots st).data.map fun row => (row.pot_id, row.location)).Nodup ∧
    (∀ row ∈ (listPots st).data,
      row.reading_count
        = st.rows.countP fun r => decide (potKey r = (row.pot_id, row.location))) ∧
    (∀ row ∈ (listPots st).data,
      (∀ r ∈ st.rows, r.pot_id = row.pot_id → r.location = row.location →
        r.timestamp ≤ row.last_reading) ∧
      ∃ r ∈ st.rows, r.pot_id = row.pot_id ∧ r.location = row.location ∧
        r.timestamp = row.last_reading) ∧
    (listPots st).data.Pairwise fun a b => a.pot_id ≤ b.pot_id := by
  set keys := (st.rows.map potKey).dedup with hkeys
  set sortedK := List.insertionSort keyLe keys with hsortedK
  have hperm : sortedK.Perm keys := List.perm_insertionSort keyLe keys
  have hdata : (listPots st).data = sortedK.map (mkPotRow st) := rfl
  have hkey_mem : ∀ k : String × Option String,
      k ∈ sortedK ↔ ∃ r ∈ st.rows, potKey r = k := by
    intro k
    rw [hperm.mem_iff, hkeys, List.mem_dedup, List.mem_map]
  refine ⟨?_, ?_, ?_, ?_, ?_⟩
  · intro p loc
    constructor
    · rintro ⟨r, hr, hrp, hrl⟩
      refine ⟨mkPotRow st (p, loc), ?_, rfl, rfl⟩
      rw [hdata]
      exact List.mem_map.mpr
        ⟨(p, loc), (hkey_mem _).mpr ⟨r, hr, by simp [potKey, hrp, hrl]⟩, rfl⟩
    · rintro ⟨row, hrow, hrp, hrl⟩
      rw [hdata] at hrow
      rcases List.mem_map.mp hrow with ⟨k, hk, hkrow⟩
      rcases (hkey_mem k).mp hk with ⟨r, hr, hrk⟩
      refine ⟨r, hr, ?_, ?_⟩
      · rw [← hrp, ← hkrow]
        exact congrArg Prod.fst hrk
      · rw [← hrl, ← hkrow]
        exact congrArg Prod.snd hrk
  · have hmapkeys : ((listPots st).data.map fun row => (row.pot_id, row.location))
        = sortedK := by
      rw [hdata, List.map_map]
      have h1 : ((fun row : PotRow => (row.pot_id, row.location)) ∘ mkPotRow st)
          = fun k : String × Option String => k := by
        funext k
        exact Prod.mk.eta
      rw [h1]
      exact List.map_id' sortedK
    rw [hmapkeys]
    exact hperm.nodup_iff.mpr (List.nodup_dedup _)
  · intro row hrow
    rw [hdata] at hrow
    rcases List.mem_map.mp hrow with ⟨k, _, hkrow⟩
    subst hkrow
    rw [List.countP_eq_length_filter]
    rfl
  · intro row hrow
    rw [hdata] at hrow
    rcases List.mem_map.mp hrow with ⟨k, hk, hkrow⟩
    subst hkrow
    constructor
    · intro r hr hrp hrl
      have hrg : r ∈ groupOf st k := by
        refine List.mem_filter.mpr ⟨hr, ?_⟩
        simp only [potKey, decide_eq_true_eq]
        rw [hrp, hrl]
        exact Prod.mk.eta
      exact le_maxTs _ r hrg
    · rcases (hkey_mem k).mp hk with ⟨r0, hr0, hr0k⟩
      have hr0g : r0 ∈ groupOf st k :=
        List.mem_filter.mpr ⟨hr0, by simp [hr0k]⟩
      rcases maxTs_mem (groupOf st k) (List.ne_nil_of_mem hr0g) with ⟨r, hrg, hrts⟩
      rcases List.mem_filter.mp hrg with ⟨hrmem, hrk⟩
      simp only [decide_eq_true_eq] at hrk
      refine ⟨r, hrmem, ?_, ?_, hrts⟩
      · rw [← hrk]; rfl
      · rw [← hrk]; rfl
  · rw [hdata]
    rw [List.pairwise_map]
    exact (List.sorted_insertionSort keyLe keys).imp fun h => h

theorem length_filter_add_length_filter_not {α : Type} (p : α → Bool) (l : List α) :
    (l.filter p).length + (l.filter fun a => !p a).length = l.length := by
  induction l with
  | nil => rfl
  | cons a tl ih =>
    by_cases h : p a <;> simp [List.filter_cons, h] <;> omega

/-- Response of `DELETE /api/readings/cleanup`. -/
structure CleanupResponse where
  status : Nat
  deleted : Nat
  message : String
deriving DecidableEq

/-- `DELETE /api/readings/cleanup` (server.js lines 169-195): the SQL query
`DELETE FROM readings WHERE timestamp < NOW() - INTERVAL 'days days'
RETURNING *` with `days := req.query.days || 30` (absent parameter
defaults to 30); `deleted` is the count of returned (deleted) rows.
Time is measured in days here, so the age threshold is `now - days`. -/
def cleanupHandler (now : Int) (st : Store) (daysQ : Option Int) : Store × CleanupResponse :=
  let days := daysQ.getD 30
  let removed := st.rows.filter fun r => decide (r.timestamp < now - days)
  let kept := st.rows.filter fun r => !decide (r.timestamp < now - days)
  ({ rows := kept, nextId := st.nextId },
   { status := 200, deleted := removed.length,
     message := "Deleted readings older than " ++ toString days ++ " days" })

/-- Claim C8: `cleanup(days)` (defaulting to 30 when the query parameter is
absent) removes exactly the readings with `timestamp < now - days`, leaves
every other reading unchanged (in order), and reports `deleted` equal to
the number of rows removed. -/
theorem c8_cleanup (now : Int) (st : Store) (daysQ : Option Int) :
    cleanupHandler now st none = cleanupHandler now st (some 30) ∧
    (cleanupHandler now st daysQ).1.rows.Sublist st.rows ∧
    (cleanupHandler now st daysQ).1.nextId = st.nextId ∧
    (∀ r : Reading, r ∈ (cleanupHandler now st daysQ).1.rows ↔
      r ∈ st.rows ∧ ¬(r.timestamp < now - daysQ.getD 30)) ∧
    (cleanupHandler now st daysQ).2.deleted
      = st.rows.countP (fun r => decide (r.timestamp < now - daysQ.getD 30)) ∧
    (cleanupHandler now st daysQ).2.deleted
        + (cleanupHandler now st daysQ).1.rows.length = st.rows.length := by
  refine ⟨rfl, List.filter_sublist _, rfl, ?_, ?_, ?_⟩
  · intro r
    simp [cleanupHandler, List.mem_filter]
  · simp [cleanupHandler, List.countP_eq_length_filter]
  · exact length_filter_add_length_filter_not
      (fun r => decide (r.timestamp < now - daysQ.getD 30)) st.rows

/-- Claim C10: in every successful response of the history, latest-per-pot,
and inventory endpoints, `count` equals the length of `data` (the handlers
set `count := result.rows.length`). -/
theorem c10_count_matches (st : Store) (p : String) (limitQ : Option Nat) :
    (historyHandler st p limitQ).count = (historyHandler st p limitQ).data.length ∧
    (latestPerPot st).count = (latestPerPot st).data.length ∧
    (listPots st).count = (listPots st).data.length :=
  ⟨rfl, rfl, rfl⟩
